import Mathlib

/-!
Verification of the rule-chain execution engine (rule-rs).

This file gives a shallow embedding, in Lean 4, of the parts of the engine
that the checked claims are about: the chain store and execution counters,
the circular-dependency checker, chain removal, successor selection,
the join / fork components, the node registry, the transform template
substitution, and the message-processing pipeline.  Every definition is
translated from the Rust source (src/engine/rule.rs, src/engine/node.rs,
src/components/join.rs, src/components/fork.rs, src/components/transform.rs,
src/types/context.rs, src/aop/mod.rs); Rust `HashMap`s are modelled as
association lists (lookup/insert semantics; no theorem depends on the
unspecified iteration order), `HashSet`s as duplicate-free lists, machine
integers as `Nat`/`Int`, fallible code as `Except`/`Option`, and graph
recursion is driven by an explicit fuel argument (the concrete instances
evaluated below use ample fuel).
-/

namespace RuleRs

/-! ## Association lists (model of Rust HashMap) -/

/-- Lookup in an association list; models `HashMap::get`. -/
def alookup {α : Type} : List (String × α) → String → Option α
  | [], _ => none
  | (k, v) :: rest, key => if k = key then some v else alookup rest key

/-- Insert/replace in an association list; models `HashMap::insert`: the
entry for an existing key is replaced in place, other entries are kept,
a fresh key is appended. -/
def ainsert {α : Type} : List (String × α) → String → α → List (String × α)
  | [], k, v => [(k, v)]
  | p :: rest, k, v => if p.1 = k then (k, v) :: rest else p :: ainsert rest k v

/-- Remove a key; models `HashMap::remove`. -/
def aremove {α : Type} : List (String × α) → String → List (String × α)
  | [], _ => []
  | p :: rest, k => if p.1 = k then aremove rest k else p :: aremove rest k

/-- Member-insert for a duplicate-free list; models `HashSet::insert`. -/
def sinsert (l : List String) (k : String) : List String :=
  if k ∈ l then l else k :: l

/-! ## JSON values (model of serde_json::Value)

Numbers are modelled as integers: every JSON number occurring in the claims
and in the engine's own configuration handling is integral, and floating
point is out of scope of the embedding. -/

/-- JSON value, mirroring `serde_json::Value`.  Objects are association
lists of fields. -/
inductive Json where
  | null : Json
  | bool (b : Bool) : Json
  | num (n : Int) : Json
  | str (s : String) : Json
  | arr (elems : List Json) : Json
  | obj (fields : List (String × Json)) : Json

/-- Field access on an object; models `Value::get` with a string index
(`None` on every non-object value, as in serde_json). -/
def Json.get (v : Json) (key : String) : Option Json :=
  match v with
  | .obj fields => alookup fields key
  | _ => none

/-- Opening-brace character, kept out of string literals. -/
def lbrace : Char := Char.ofNat 123

/-- Closing-brace character, kept out of string literals. -/
def rbrace : Char := Char.ofNat 125

/-- Compact serialization, modelling `Value::to_string` (string escaping is
elided: no claim exercises it on strings needing escapes). -/
def Json.render : Json → String
  | .null => "null"
  | .bool b => if b then "true" else "false"
  | .num n => toString n
  | .str s => "\"" ++ s ++ "\""
  | .arr elems => "[" ++ String.intercalate ","
      (elems.attach.map (fun e => Json.render e.1)) ++ "]"
  | .obj fields => String.mk [lbrace] ++ String.intercalate ","
      (fields.attach.map (fun f => "\"" ++ f.1.1 ++ "\":" ++ Json.render f.1.2))
      ++ String.mk [rbrace]
  decreasing_by
  · have h1 := List.sizeOf_lt_of_mem e.2
    simp only [Json.arr.sizeOf_spec]
    omega
  · obtain ⟨⟨a, b⟩, hf⟩ := f
    have h1 := List.sizeOf_lt_of_mem hf
    simp only [Json.obj.sizeOf_spec, Prod.mk.sizeOf_spec] at *
    omega

/-! ## Core data model (src/types) -/

/-- UUIDs are carried as their canonical string form.  `uuid::Uuid` is an
opaque identifier for the engine: it is only ever compared for equality and
printed, both of which the string form models faithfully. -/
abbrev Uuid := String

/-- Message envelope, mirroring `Message` in src/types/message.rs.
`metadata` is a `HashMap<String, String>`, modelled as an association list. -/
structure Message where
  id : Uuid
  msg_type : String
  metadata : List (String × String)
  data : Json
  timestamp : Int

/-- Graph node, mirroring `Node` in src/types/node.rs.  The `layout`
field (canvas coordinates, `f32`) is never read by any engine logic under
verification and is omitted. -/
structure Node where
  id : Uuid
  type_name : String
  config : Json
  chain_id : Uuid

/-- Edge between nodes, mirroring `Connection`; `type_name` is the branch
label. -/
structure Connection where
  from_id : Uuid
  to_id : Uuid
  type_name : String

/-- Chain metadata, mirroring `Metadata`. -/
structure ChainMetadata where
  version : Nat
  created_at : Int
  updated_at : Int

/-- Rule chain, mirroring `RuleChain`. -/
structure RuleChain where
  id : Uuid
  name : String
  root : Bool
  nodes : List Node
  connections : List Connection
  metadata : ChainMetadata

/-- Node role, mirroring `NodeType` (serde-renamed to
"head" / "middle" / "tail"). -/
inductive NodeType where
  | Head : NodeType
  | Middle : NodeType
  | Tail : NodeType
deriving DecidableEq, Repr

/-- Node descriptor, mirroring `NodeDescriptor` in src/types/descriptor.rs. -/
structure NodeDescriptor where
  type_name : String
  name : String
  description : String
  node_type : NodeType

/-- Engine error type, mirroring `RuleError` in src/types/error.rs. -/
inductive RuleError where
  | NoRootChain : RuleError
  | HandlerNotFound (s : String) : RuleError
  | NodeExecutionError (s : String) : RuleError
  | FilterReject : RuleError
  | ConfigError (s : String) : RuleError
  | CircularDependency (s : String) : RuleError
  | ChainNotFound (id : Uuid) : RuleError
deriving DecidableEq, Repr

/-! ## Subchain config deserialization

`SubchainConfig` (src/components/subchain.rs) is
`\x7b chain_id: Uuid, #[serde(flatten)] common: CommonConfig \x7d` where
`CommonConfig.node_type` defaults to `Middle`.  serde ignores unknown
fields, so *any* JSON object with a `chain_id` field holding a valid UUID
string (and no ill-formed `node_type` field) deserializes successfully —
regardless of which node type the config belongs to. -/

/-- Hexadecimal digit test, as accepted inside a UUID. -/
def isHexDigit (c : Char) : Bool :=
  c.isDigit || ('a' ≤ c && c ≤ 'f') || ('A' ≤ c && c ≤ 'F')

/-- Canonical hyphenated UUID string check (8-4-4-4-12).  `Uuid`
deserialization also accepts some alternative textual forms; the concrete
inputs below only use the canonical form, which this models. -/
def isUuidString (s : String) : Bool :=
  s.length = 36 &&
    (List.range 36).all (fun i =>
      match s.data.get? i with
      | none => false
      | some c =>
        if i = 8 || i = 13 || i = 18 || i = 23 then c = '-' else isHexDigit c)

/-- Parsed `SubchainConfig`. -/
structure SubchainConfig where
  chain_id : Uuid
  node_type : NodeType

/-- Deserialization of the serde-renamed `NodeType` from a JSON value. -/
def parseNodeType : Json → Option NodeType
  | .str "head" => some .Head
  | .str "middle" => some .Middle
  | .str "tail" => some .Tail
  | _ => none

/-- Models `serde_json::from_value::<SubchainConfig>`: requires an object
with a `chain_id` field holding a UUID string; the flattened
`CommonConfig.node_type` defaults to `Middle` when absent and fails when
present but invalid; all other fields are ignored. -/
def parseSubchainConfig (v : Json) : Option SubchainConfig :=
  match v with
  | .obj _ =>
    match v.get "chain_id" with
    | some (.str s) =>
      if isUuidString s then
        match v.get "node_type" with
        | none => some ⟨s, .Middle⟩
        | some t =>
          match parseNodeType t with
          | some nt => some ⟨s, nt⟩
          | none => none
      else none
    | _ => none
  | _ => none

/-! ## Engine state: chain store and execution counters (src/engine/rule.rs)

`RuleEngine` keeps `chains: HashMap<Uuid, Arc<RuleChain>>` and
`execution_counters: HashMap<Uuid, Arc<Mutex<usize>>>`.  Both maps are
modelled as association lists.  The embedding is of the engine's sequential
semantics: each operation below is one (lock-protected) engine call. -/

/-- Mutable engine state: the chain store and the per-chain execution
counters.  Counter values are `usize`, modelled as `Nat`. -/
structure EngineState where
  chains : List (Uuid × RuleChain)
  counters : List (Uuid × Nat)

/-- Value of a chain's execution counter; a missing entry reads as zero
(the code creates entries on first increment). -/
def counterValue (st : EngineState) (chainId : Uuid) : Nat :=
  (alookup st.counters chainId).getD 0

/-- Models `RuleEngine::increment_counter`: `entry(chain_id).or_insert(0)`
followed by `*count += 1`. -/
def incrementCounter (st : EngineState) (chainId : Uuid) : EngineState :=
  { st with counters :=
      ainsert st.counters chainId ((alookup st.counters chainId).getD 0 + 1) }

/-- Models `RuleEngine::decrement_counter`: if an entry exists,
`*count = count.saturating_sub(1)` (on `Nat`, truncated subtraction is
exactly `usize::saturating_sub`); a missing entry is left missing. -/
def decrementCounter (st : EngineState) (chainId : Uuid) : EngineState :=
  match alookup st.counters chainId with
  | some n => { st with counters := ainsert st.counters chainId (n - 1) }
  | none => st

/-- Models `RuleChain::get_start_node`:
`self.nodes.first().ok_or(ConfigError("Empty rule chain")).map(Some)`. -/
def getStartNode (c : RuleChain) : Except RuleError (Option Node) :=
  match c.nodes with
  | [] => .error (.ConfigError "Empty rule chain")
  | n :: _ => .ok (some n)

/-- Start-node resolution as written in `load_chain` and `execute_chain`:
`chain.get_start_node()?.ok_or_else(|| ConfigError("规则链没有起始节点"))`. -/
def resolveStartNode (c : RuleChain) : Except RuleError Node :=
  match getStartNode c with
  | .error e => .error e
  | .ok none => .error (.ConfigError "规则链没有起始节点")
  | .ok (some n) => .ok n

/-- Models `RuleEngine::execute_chain`'s counter discipline: increment the
chain's counter, run the body (start-node resolution plus the start node's
execution — abstracted as `body`, which may read and update engine state
and may fail), then decrement the counter and return the body's result.
The decrement is unconditional: it runs on the error path too (the
`defer`-style `result` block in the source). -/
def executeChain (st : EngineState) (chain : RuleChain)
    (body : EngineState → Except RuleError Message × EngineState) :
    Except RuleError Message × EngineState :=
  let st1 := incrementCounter st chain.id
  let (result, st2) := body st1
  (result, decrementCounter st2 chain.id)

/-! ## Successor selection (src/engine/rule.rs `get_next_node`,
src/types/context.rs `send_next`) -/

/-- Resolution of a connection's target node, as inlined in
`get_next_node`: find the node with the connection's `to_id`, else
`ConfigError("Invalid connection")`. -/
def resolveConnTarget (c : RuleChain) (conn : Connection) :
    Except RuleError (Option Node) :=
  match c.nodes.find? (fun n => n.id = conn.to_id) with
  | some n => .ok (some n)
  | none => .error (.ConfigError "Invalid connection")

/-- Models `RuleChain::get_next_node`: collect the outgoing connections of
`currentId` (in connection-list order); with no connections return `none`;
if the context message's `metadata["branch_name"]` is set and some
connection's `type_name` equals it, take the first such connection;
otherwise take the first connection. -/
def getNextNode (c : RuleChain) (currentId : Uuid) (msg : Message) :
    Except RuleError (Option Node) :=
  let nextConns := c.connections.filter (fun conn => conn.from_id = currentId)
  match nextConns with
  | [] => .ok none
  | first :: _ =>
    match alookup msg.metadata "branch_name" with
    | some branch =>
      match nextConns.find? (fun conn => conn.type_name = branch) with
      | some conn => resolveConnTarget c conn
      | none => resolveConnTarget c first
    | none => resolveConnTarget c first

/-- Models `NodeContext::send_next` up to the point of delivery: look up the
node's chain, select the successor with `get_next_node`, and return the
node the message is handed to (`none` means no outgoing connection — the
send is a no-op and succeeds).  The recursive `execute_node` call on the
returned target is the dispatcher's graph walk and is outside this step. -/
def sendNextTarget (st : EngineState) (node : Node) (msg : Message) :
    Except RuleError (Option Node) :=
  match alookup st.chains node.chain_id with
  | none => .error (.ChainNotFound node.chain_id)
  | some chain => getNextNode chain node.id msg

/-! ## Chain removal (src/engine/rule.rs `remove_chain`)

The source first rejects unknown ids, then scans **every node of every
loaded chain** (including the chain being removed) and refuses removal if
any node's config deserializes to a `SubchainConfig` whose `chain_id` is
the target — note there is no check that the node's `type_name` is
"subchain".  It then polls the execution counter every 100 ms for up to
5 s.  In this sequential embedding the counter cannot change during the
call, so the polling loop reduces to the final counter read: a zero counter
is observed by the first poll and removal proceeds; a positive counter is
observed by every poll, the window elapses, and the timeout error is
returned.  On success both the chain and its counter entry are removed. -/

/-- Reference scan of `remove_chain`: does any loaded chain contain a node
whose config parses as a `SubchainConfig` referencing `id`? -/
def isReferenced (st : EngineState) (id : Uuid) : Bool :=
  st.chains.any (fun entry =>
    entry.2.nodes.any (fun node =>
      match parseSubchainConfig node.config with
      | some cfg => cfg.chain_id = id
      | none => false))

/-- Models `RuleEngine::remove_chain` (see the section comment for the
treatment of the 5 s polling window). -/
def removeChain (st : EngineState) (id : Uuid) : Except RuleError EngineState :=
  match alookup st.chains id with
  | none => .error (.ChainNotFound id)
  | some _ =>
    if isReferenced st id then
      .error (.ConfigError ("规则链 " ++ id ++ " 被引用,无法删除"))
    else if counterValue st id > 0 then
      .error (.ConfigError ("无法删除正在执行的规则链 " ++ id ++ ", 等待超时"))
    else
      .ok { chains := aremove st.chains id, counters := aremove st.counters id }

/-! ## Circular-dependency check (src/engine/rule.rs
`check_circular_dependency`)

The checker runs a DFS over the candidate chain's nodes with three pieces
of state: `visited` and `stack` (node-id sets, the usual white/grey
colouring) and `chain_stack` (chain-id set used across sub-chain
boundaries).  When the DFS visits a node of type "subchain" whose config
parses, it reports a chain cycle if the referenced chain id is already in
`chain_stack`, otherwise **inserts the current chain's id** into
`chain_stack` and recurses over all nodes of the referenced chain (if
loaded).  `stack` is removed from on the way back out of the DFS, but
`chain_stack` is never removed from.  All three are `HashSet`s, modelled as
duplicate-free lists; the cycle error messages in the source are built by
iterating a `HashSet` (unspecified order), so the embedding renders them
deterministically and no theorem depends on their text. -/

/-- DFS state of `check_circular_dependency`. -/
structure DfsState where
  visited : List Uuid
  stack : List Uuid
  chainStack : List Uuid

/-- Models the inner `check_subchain_node` of `check_circular_dependency`:
on a "subchain" node with a parsable config, detect a chain-stack hit,
insert the current chain id, and recurse over every node of the referenced
chain when it is loaded.  Returns the updated `chain_stack`.  `fuel`
bounds the recursion depth; all concrete evaluations below use ample
fuel. -/
def checkSubchainNode (chains : List (Uuid × RuleChain)) :
    Nat → Node → List Uuid → Uuid → Except RuleError (List Uuid)
  | 0, _, chainStack, _ => .ok chainStack
  | fuel + 1, node, chainStack, chainId =>
    if node.type_name = "subchain" then
      match parseSubchainConfig node.config with
      | some cfg =>
        if cfg.chain_id ∈ chainStack then
          .error (.CircularDependency
            ("检测到规则链循环依赖: " ++ String.intercalate " -> " chainStack
              ++ " -> " ++ cfg.chain_id))
        else
          let chainStack1 := sinsert chainStack chainId
          match alookup chains cfg.chain_id with
          | some sub =>
            sub.nodes.foldlM
              (fun cs n => checkSubchainNode chains fuel n cs sub.id) chainStack1
          | none => .ok chainStack1
      | none => .ok chainStack
    else .ok chainStack

/-- Models the inner `dfs` of `check_circular_dependency`: grey-stack hit
reports a node cycle; visited nodes are skipped; otherwise mark the node,
run the subchain check on it, recurse along its outgoing connections, and
un-grey it on the way out. -/
def dfs (chains : List (Uuid × RuleChain)) (chain : RuleChain) :
    Nat → Uuid → DfsState → Except RuleError DfsState
  | 0, _, st => .ok st
  | fuel + 1, nodeId, st =>
    if nodeId ∈ st.stack then
      .error (.CircularDependency
        ("检测到节点循环依赖: " ++ String.intercalate " -> " (st.stack ++ [nodeId])))
    else if nodeId ∈ st.visited then
      .ok st
    else
      let st1 : DfsState :=
        { st with visited := sinsert st.visited nodeId
                  stack := sinsert st.stack nodeId }
      let afterSub : Except RuleError (List Uuid) :=
        match chain.nodes.find? (fun n => n.id = nodeId) with
        | some node => checkSubchainNode chains fuel node st1.chainStack chain.id
        | none => .ok st1.chainStack
      match afterSub with
      | .error e => .error e
      | .ok cs =>
        match (chain.connections.filter (fun c => c.from_id = nodeId)).foldlM
            (fun acc conn => dfs chains chain fuel conn.to_id acc)
            { st1 with chainStack := cs } with
        | .error e => .error e
        | .ok st3 => .ok { st3 with stack := st3.stack.erase nodeId }

/-- Models `RuleEngine::check_circular_dependency`: run the DFS from every
node of the candidate chain against the currently loaded chain store. -/
def checkCircularDependency (fuel : Nat) (chains : List (Uuid × RuleChain))
    (chain : RuleChain) : Except RuleError Unit :=
  match chain.nodes.foldlM (fun st node => dfs chains chain fuel node.id st)
      ({ visited := [], stack := [], chainStack := [] } : DfsState) with
  | .error e => .error e
  | .ok _ => .ok ()

/-- Tests whether an `Except` result is a `CircularDependency` error. -/
def isCircularError {α : Type} : Except RuleError α → Bool
  | .error (.CircularDependency _) => true
  | _ => false

/-! ## Specification-side cross-chain sub-chain graph

Independent of the checker above, the spec's notion of the cross-chain
sub-chain graph: one edge per "subchain"-typed node with a parsable config,
from its owning chain's id to the referenced chain id.  Acyclicity is
decided by bounded reachability (paths in a finite graph need at most as
many steps as there are chains). -/

/-- Chain ids referenced by a chain's "subchain" nodes. -/
def subchainRefs (c : RuleChain) : List Uuid :=
  c.nodes.filterMap (fun n =>
    if n.type_name = "subchain" then
      (parseSubchainConfig n.config).map (fun cfg => cfg.chain_id)
    else none)

/-- Edges of the cross-chain sub-chain graph over a set of chains. -/
def subchainEdges (cs : List RuleChain) : List (Uuid × Uuid) :=
  cs.flatMap (fun c => (subchainRefs c).map (fun t => (c.id, t)))

/-- One step of forward reachability. -/
def reachStep (edges : List (Uuid × Uuid)) (frontier : List Uuid) : List Uuid :=
  (edges.filterMap (fun e => if e.1 ∈ frontier then some e.2 else none)) ++ frontier

/-- Bounded iterated reachability. -/
def reachN (edges : List (Uuid × Uuid)) : Nat → List Uuid → List Uuid
  | 0, f => f
  | n + 1, f => reachN edges n (reachStep edges f)

/-- Acyclicity of the cross-chain sub-chain graph of `cs`: no chain id can
reach itself by following one of its own sub-chain references. -/
def subchainGraphAcyclic (cs : List RuleChain) : Bool :=
  cs.all (fun c =>
    (subchainRefs c).all (fun t =>
      decide (c.id ∉ reachN (subchainEdges cs) cs.length [t])))

/-! ## Join node (src/components/join.rs)

`JoinNode::handle` keys a process-global
`GLOBAL_JOIN_STATE: HashMap<String, Vec<Message>>` by `msg.id.to_string()`,
computes `expected` as the number of connections into the join node, pushes
the arrival, and either merges (when the stored list has reached
`expected`) or returns the inbound message unchanged.  One handler call is
one step of the state map. -/

/-- Global join state: message-id keyed lists of stored arrivals. -/
abbrev JoinState := List (String × List Message)

/-- Outcome of one `JoinNode::handle` call: the updated global state, the
handler's return value, and the message handed to `ctx.send_next`
(`none` when the handler did not forward downstream).  The successor the
forwarded message is routed to is `send_next`'s job, modelled by
`sendNextTarget`. -/
structure JoinOutcome where
  state : JoinState
  result : Except RuleError Message
  forwarded : Option Message

/-- The merged message the join emits: same id, type, metadata and
timestamp as the final arrival, with
`data = \x7b "branches": [\x7b "data": d \x7d, …] \x7d` over the drained
arrivals in arrival order. -/
def joinMerged (msg : Message) (stored : List Message) : Message :=
  { id := msg.id
    msg_type := msg.msg_type
    metadata := msg.metadata
    data := .obj [("branches", .arr (stored.map (fun m => .obj [("data", m.data)])))]
    timestamp := msg.timestamp }

/-- Models `JoinNode::handle`.  `expected` counts connections whose `to_id`
is the join node's id; the arrival is pushed onto the entry for
`msg.id` (created empty if absent, `entry(..).or_insert_with(Vec::new)`);
when the pushed list's length reaches `expected` the list is drained
(leaving an empty entry) and the merged message is both forwarded via
`send_next` and returned, otherwise the inbound message is returned and
nothing is forwarded. -/
def joinHandle (st : EngineState) (node : Node) (g : JoinState) (msg : Message) :
    JoinOutcome :=
  match alookup st.chains node.chain_id with
  | none => ⟨g, .error (.ChainNotFound node.chain_id), none⟩
  | some chain =>
    let expected := (chain.connections.filter (fun conn => conn.to_id = node.id)).length
    let stored := (alookup g msg.id).getD []
    let pushed := stored ++ [msg]
    if pushed.length ≥ expected then
      let merged := joinMerged msg pushed
      ⟨ainsert g msg.id [], .ok merged, some merged⟩
    else
      ⟨ainsert g msg.id pushed, .ok msg, none⟩

/-! ## Fork node (src/components/fork.rs)

`ForkNode::handle` asks `ctx.get_next_connections("Success")` — note the
capitalised label — for the outgoing connections, builds one copy of the
message per connection with `metadata["branch_id"] = i.to_string()` and
`metadata["is_branch"] = "true"` (also recording each copy with
`ctx.add_branch_result`), spawns one task per connection executing the
connection's target node, then awaits the tasks in spawn order,
short-circuiting on the first error, and finally returns the original
message. -/

/-- Models `NodeContext::get_next_connections`: outgoing connections of the
node whose `type_name` equals the requested label (exact, case-sensitive
string equality). -/
def getNextConnections (st : EngineState) (node : Node) (typeName : String) :
    Except RuleError (List Connection) :=
  match alookup st.chains node.chain_id with
  | none => .error (.ChainNotFound node.chain_id)
  | some chain =>
    .ok (chain.connections.filter
      (fun conn => conn.from_id = node.id ∧ conn.type_name = typeName))

/-- Branch copies built by `ForkNode::handle`: the i-th copy carries
`branch_id = toString i` and `is_branch = "true"` in its metadata. -/
def forkBranchMessages (msg : Message) (conns : List Connection) : List Message :=
  (List.range conns.length).map (fun i =>
    { msg with metadata :=
        ainsert (ainsert msg.metadata "branch_id" (toString i)) "is_branch" "true" })

/-- Dispatches performed by `ForkNode::handle`: the target node id and the
branch copy sent to it, one per "Success"-labelled outgoing connection, in
connection order (`connections.into_iter().zip(branch_msgs)`).  The
spawned tasks' execution is the dispatcher's job; their results are fed to
`forkCollect`. -/
def forkDispatches (st : EngineState) (node : Node) (msg : Message) :
    Except RuleError (List (Uuid × Message)) :=
  match getNextConnections st node "Success" with
  | .error e => .error e
  | .ok conns =>
    .ok ((conns.zip (forkBranchMessages msg conns)).map (fun p => (p.1.to_id, p.2)))

/-- Models the await loop of `ForkNode::handle`: the branch results are
inspected in spawn order, the first error is returned, and if every branch
succeeded the original message is returned. -/
def forkCollect : List (Except RuleError Message) → Message → Except RuleError Message
  | [], msg => .ok msg
  | .ok _ :: rest, msg => forkCollect rest msg
  | .error e :: _, _ => .error e

/-! ## Node registry (src/engine/node.rs)

`NodeRegistry` keeps `factories: HashMap<String, NodeFactory>` and
`descriptors: HashMap<String, NodeDescriptor>`.  A handler is modelled by
the one capability the registry consumes: its descriptor.  A factory is a
function from a config to a handler or a failure (`Box<dyn Error>`
modelled as `none`). -/

/-- A node handler, modelled by its `get_descriptor()` value. -/
structure Handler where
  descriptor : NodeDescriptor

/-- A node factory: config JSON to handler or failure. -/
abbrev NodeFactory := Json → Option Handler

/-- The node registry's two maps. -/
structure NodeRegistry where
  factories : List (String × NodeFactory)
  descriptors : List (String × NodeDescriptor)

/-- The empty JSON object the registry probes factories with. -/
def emptyJsonObj : Json := .obj []

/-- Models `NodeRegistry::register`: invoke the factory on an empty JSON
object; on success cache the returned handler's descriptor and store the
factory; on failure only log — neither map is touched. -/
def register (reg : NodeRegistry) (typeName : String) (factory : NodeFactory) :
    NodeRegistry :=
  match factory emptyJsonObj with
  | some node =>
    { factories := ainsert reg.factories typeName factory
      descriptors := ainsert reg.descriptors typeName node.descriptor }
  | none => reg

/-- Models `NodeRegistry::create_handler`: look the factory up and apply it
to the config (failures of either step give `none`). -/
def createHandler (reg : NodeRegistry) (typeName : String) (config : Json) :
    Option Handler :=
  match alookup reg.factories typeName with
  | some f => f config
  | none => none

/-- Models `NodeRegistry::get_registered_types`: the keys of the factory
map. -/
def getRegisteredTypes (reg : NodeRegistry) : List String :=
  reg.factories.map (fun p => p.1)

/-- Models `NodeRegistry::get_descriptor`: re-invoke the registered factory
on an empty config and take the resulting handler's descriptor, with
`type_name` overridden by the registry key (the cached `descriptors` map is
not consulted by this path in the source). -/
def getDescriptor (reg : NodeRegistry) (typeName : String) : Option NodeDescriptor :=
  match alookup reg.factories typeName with
  | some f =>
    match f emptyJsonObj with
    | some node => some { node.descriptor with type_name := typeName }
    | none => none
  | none => none

/-- Models `RuleChain::get_node_type` (src/engine/rule.rs): descriptor
lookup for a node's type, failing validation with a config error when the
type is unknown. -/
def getNodeTypeOfNode (reg : NodeRegistry) (node : Node) :
    Except RuleError NodeType :=
  match getDescriptor reg node.type_name with
  | some d => .ok d.node_type
  | none => .error (.ConfigError ("未找到节点类型: " ++ node.type_name))

/-! ## Transform template substitution (src/components/transform.rs)

`TransformNode::apply_template` clones the template and, for each
**top-level string value** of the template object, runs a while-let loop:
find the first "$\x7b", find the first "\x7d" at or after it, take the
path between them, compute a replacement, splice it in, and rescan the
whole string from the start.  The replacement for a path starting with
"msg." is a dotted-path lookup into `msg.data`; the `match` arms for
"msg.type" and "msg.id" sit in the `else` branch and are therefore
unreachable (any such path starts with "msg."); every other path yields
the empty string.  Because replacements are rescanned, the source loop can
run forever when looked-up data itself contains markers; the embedding
bounds it with fuel, and every theorem below supplies conditions under
which the loop exits within the given fuel, matching terminating source
runs. -/

/-- Split a character list at '.' separators, keeping empty segments;
models `str::split('.')` (on the empty string both yield the one-element
list holding the empty segment). -/
def splitOnDot : List Char → List (List Char)
  | [] => [[]]
  | c :: rest =>
    if c = '.' then [] :: splitOnDot rest
    else
      match splitOnDot rest with
      | [] => [[c]]
      | p :: ps => (c :: p) :: ps

/-- Dotted-path descent, modelling the `for part in parts` loop of
`get_value_by_path` (each step is `Value::get`, so arrays and scalars end
the walk with `None`). -/
def getValueByPathWalk : Json → List (List Char) → Option Json
  | v, [] => some v
  | v, part :: rest =>
    match v.get (String.mk part) with
    | some v' => getValueByPathWalk v' rest
    | none => none

/-- Models `TransformNode::get_value_by_path` (the path and result carried
as character lists): walk the dotted path, then stringify — strings
verbatim, numbers and booleans via `to_string`, and anything else via JSON
serialization. -/
def getValueByPath (data : Json) (path : List Char) : Option (List Char) :=
  match getValueByPathWalk data (splitOnDot path) with
  | none => none
  | some (.str s) => some s.data
  | some (.num n) => some (toString n).data
  | some (.bool b) => some (if b then ("true").data else ("false").data)
  | some v => some v.render.data

/-- Test for the literal prefix "msg."; models
`var_path.starts_with("msg.")`. -/
def startsWithMsgDot : List Char → Bool
  | 'm' :: 's' :: 'g' :: '.' :: _ => true
  | _ => false

/-- Replacement computed for one `$\x7bvar_path\x7d` marker.  The
"msg.type" / "msg.id" arms are kept exactly as in the source; they are dead
code because they sit under the `!starts_with("msg.")` branch. -/
def markerReplacement (msg : Message) (varPath : List Char) : List Char :=
  if startsWithMsgDot varPath then
    (getValueByPath msg.data (varPath.drop 4)).getD []
  else
    if varPath = ("msg.type").data then msg.msg_type.data
    else if varPath = ("msg.id").data then msg.id.data
    else []

/-- Index of the first occurrence of the two-character marker opener
"$\x7b"; models `str::find("$\x7b")` (byte indices of the source
correspond to character indices here; the inputs under verification are
ASCII). -/
def findMarker : List Char → Option Nat
  | [] => none
  | c :: rest =>
    if c = '$' then
      match rest with
      | c2 :: _ =>
        if c2 = lbrace then some 0 else (findMarker rest).map (fun i => i + 1)
      | [] => none
    else (findMarker rest).map (fun i => i + 1)

/-- Index of the first occurrence of a character; models
`str::find(char)`. -/
def findCharIn (ch : Char) : List Char → Option Nat
  | [] => none
  | c :: rest => if c = ch then some 0 else (findCharIn ch rest).map (fun i => i + 1)

/-- Models the while-let substitution loop of `apply_template` on one
string (as a character list): `start` is the marker position, `e` the
offset of the closing brace relative to `start`, `var_path` the characters
between, and `replace_range(start..start + e + 1)` splices the
replacement in before the loop rescans from the beginning. -/
def substLoop (msg : Message) : Nat → List Char → List Char
  | 0, s => s
  | fuel + 1, s =>
    match findMarker s with
    | none => s
    | some start =>
      match findCharIn rbrace (s.drop start) with
      | none => s
      | some e =>
        let varPath := (s.drop (start + 2)).take (e - 2)
        let repl := markerReplacement msg varPath
        substLoop msg fuel (s.take start ++ repl ++ s.drop (start + e + 1))

/-- Models `TransformNode::apply_template`: substitute inside every
top-level string value of the template object; non-string values and
non-object templates are returned unchanged (the source only iterates
`Value::Object` entries and only rewrites `Value::String` ones). -/
def applyTemplate (fuel : Nat) (msg : Message) (template : Json) :
    Except RuleError Json :=
  match template with
  | .obj fields =>
    .ok (.obj (fields.map (fun f =>
      match f.2 with
      | .str s => (f.1, Json.str (String.mk (substLoop msg fuel s.data)))
      | v => (f.1, v))))
  | v => .ok v

/-! ## Message processing pipeline (src/engine/rule.rs `process_msg`,
src/aop/mod.rs `InterceptorManager`)

A message interceptor contributes a `before_process` and an
`after_process` hook; the manager invokes them in registration order,
aborting on the first error.  `process_msg` runs the before hooks, looks
the chain up, requires `root`, executes the chain on a fresh execution
context built from a clone of the inbound message, runs the after hooks
— passing them the *original inbound message* — and finally returns the
result that `execute_chain` produced before the after hooks ran.
`execute_chain`'s internals are abstracted as `executeChainFn` (its
counter discipline is the separate `executeChain` model above). -/

/-- One message-interceptor hook (`before_process` or `after_process`). -/
abbrev MsgHook := Message → Except RuleError Unit

/-- Models `InterceptorManager::before_process`: invoke each interceptor's
before hook in registration order, aborting on the first error. -/
def beforeProcess : List (MsgHook × MsgHook) → Message → Except RuleError Unit
  | [], _ => .ok ()
  | h :: rest, msg =>
    match h.1 msg with
    | .ok _ => beforeProcess rest msg
    | .error e => .error e

/-- Models `InterceptorManager::after_process`, same order and abort
behaviour as `beforeProcess`. -/
def afterProcess : List (MsgHook × MsgHook) → Message → Except RuleError Unit
  | [], _ => .ok ()
  | h :: rest, msg =>
    match h.2 msg with
    | .ok _ => afterProcess rest msg
    | .error e => .error e

/-- Models `RuleEngine::process_msg` (see the section comment). -/
def processMsg (st : EngineState) (hooks : List (MsgHook × MsgHook))
    (executeChainFn : RuleChain → Message → Except RuleError Message)
    (chainId : Uuid) (msg : Message) : Except RuleError Message :=
  match beforeProcess hooks msg with
  | .error e => .error e
  | .ok _ =>
    match alookup st.chains chainId with
    | none => .error (.ChainNotFound chainId)
    | some chain =>
      if chain.root = false then
        .error (.ConfigError ("Chain " ++ chainId ++ " is not a root chain"))
      else
        match executeChainFn chain msg with
        | .error e => .error e
        | .ok result =>
          match afterProcess hooks msg with
          | .error e => .error e
          | .ok _ => .ok result

/-! ## Concrete chains and messages used by the theorems below -/

/-- Claim-side notion (for comparison with the code's `isReferenced`):
does some loaded chain contain a node *of type "subchain"* whose config
references `id`? -/
def subchainNodeReferences (st : EngineState) (id : Uuid) : Bool :=
  st.chains.any (fun entry =>
    entry.2.nodes.any (fun node =>
      node.type_name == "subchain" &&
        match parseSubchainConfig node.config with
        | some cfg => cfg.chain_id == id
        | none => false))

/-- Tests whether an `Except` result is a `ConfigError`. -/
def isConfigError {α : Type} : Except RuleError α → Bool
  | .error (.ConfigError _) => true
  | _ => false

/-- Marker string "$\x7b" ++ p ++ "\x7d" (built without brace literals). -/
def mkMarker (p : String) : String :=
  String.mk ('$' :: lbrace :: (p.data ++ [rbrace]))

/-- Chain id of the loaded helper chain Y. -/
def uuidY : Uuid := "bbbbbbbb-0000-4000-8000-00000000000b"

/-- Chain id of the candidate chain X. -/
def uuidX : Uuid := "aaaaaaaa-0000-4000-8000-00000000000a"

/-- Chain id referenced by Y but never loaded. -/
def uuidU : Uuid := "cccccccc-0000-4000-8000-00000000000c"

/-- Start node of chain Y. -/
def nodeStartY : Node :=
  { id := "00000001-0000-4000-8000-000000000001", type_name := "start"
    config := .obj [], chain_id := uuidY }

/-- Subchain node of chain Y, referencing the never-loaded chain U. -/
def nodeSubY : Node :=
  { id := "00000002-0000-4000-8000-000000000002", type_name := "subchain"
    config := .obj [("chain_id", .str uuidU)], chain_id := uuidY }

/-- Loaded chain Y: start → subchain(U). -/
def chainY : RuleChain :=
  { id := uuidY, name := "Y", root := true
    nodes := [nodeStartY, nodeSubY]
    connections := [⟨nodeStartY.id, nodeSubY.id, "success"⟩]
    metadata := ⟨1, 0, 0⟩ }

/-- Start node of chain X. -/
def nodeStartX : Node :=
  { id := "00000003-0000-4000-8000-000000000003", type_name := "start"
    config := .obj [], chain_id := uuidX }

/-- First subchain node of X, referencing Y. -/
def nodeSubA : Node :=
  { id := "00000004-0000-4000-8000-000000000004", type_name := "subchain"
    config := .obj [("chain_id", .str uuidY)], chain_id := uuidX }

/-- Second subchain node of X, also referencing Y. -/
def nodeSubB : Node :=
  { id := "00000005-0000-4000-8000-000000000005", type_name := "subchain"
    config := .obj [("chain_id", .str uuidY)], chain_id := uuidX }

/-- Candidate chain X: start → subchain(Y) → subchain(Y).  Its sub-chain
graph together with Y is acyclic (X → Y twice, Y → U, U has no edges). -/
def chainX : RuleChain :=
  { id := uuidX, name := "X", root := true
    nodes := [nodeStartX, nodeSubA, nodeSubB]
    connections := [⟨nodeStartX.id, nodeSubA.id, "success"⟩,
                    ⟨nodeSubA.id, nodeSubB.id, "success"⟩]
    metadata := ⟨1, 0, 0⟩ }

/-- Chain store holding only Y (the state in which X is loaded). -/
def storeC1 : List (Uuid × RuleChain) := [(uuidY, chainY)]

/-- Chain id of the removal target T. -/
def uuidT : Uuid := "dddddddd-0000-4000-8000-00000000000d"

/-- Chain id of the chain holding a js_function node. -/
def uuidZ : Uuid := "eeeeeeee-0000-4000-8000-00000000000e"

/-- Sole node of chain T. -/
def nodeStartT : Node :=
  { id := "00000006-0000-4000-8000-000000000006", type_name := "start"
    config := .obj [], chain_id := uuidT }

/-- Removal target chain T. -/
def chainT : RuleChain :=
  { id := uuidT, name := "T", root := true
    nodes := [nodeStartT], connections := [], metadata := ⟨1, 0, 0⟩ }

/-- Start node of chain Z. -/
def nodeStartZ : Node :=
  { id := "00000007-0000-4000-8000-000000000007", type_name := "start"
    config := .obj [], chain_id := uuidZ }

/-- A js_function node whose config carries its `chain_id` name-mangling
field holding T's id — not a subchain node, yet its config deserializes as
a `SubchainConfig` referencing T. -/
def nodeJsZ : Node :=
  { id := "00000008-0000-4000-8000-000000000008", type_name := "js_function"
    config := .obj [("functions", .obj []), ("main", .str "main"),
                    ("chain_id", .str uuidT), ("node_id", .str "n1")]
    chain_id := uuidZ }

/-- Chain Z: start → js_function. -/
def chainZ : RuleChain :=
  { id := uuidZ, name := "Z", root := true
    nodes := [nodeStartZ, nodeJsZ]
    connections := [⟨nodeStartZ.id, nodeJsZ.id, "success"⟩]
    metadata := ⟨1, 0, 0⟩ }

/-- Engine state for the removal counterexample: T and Z loaded, no
execution in flight. -/
def stateC4 : EngineState := ⟨[(uuidT, chainT), (uuidZ, chainZ)], []⟩

/-- Engine state for the removal witness: only T loaded, no executions. -/
def stateTOnly : EngineState := ⟨[(uuidT, chainT)], []⟩

/-- Chain id of the fork counterexample chain F. -/
def uuidF : Uuid := "ffffffff-0000-4000-8000-00000000000f"

/-- Fork node of chain F. -/
def nodeForkF : Node :=
  { id := "00000009-0000-4000-8000-000000000009", type_name := "fork"
    config := .obj [], chain_id := uuidF }

/-- Log node of chain F. -/
def nodeLogF : Node :=
  { id := "0000000a-0000-4000-8000-00000000000a", type_name := "log"
    config := .obj [], chain_id := uuidF }

/-- Chain F: fork → log with the lower-case branch label "success". -/
def chainF : RuleChain :=
  { id := uuidF, name := "F", root := true
    nodes := [nodeForkF, nodeLogF]
    connections := [⟨nodeForkF.id, nodeLogF.id, "success"⟩]
    metadata := ⟨1, 0, 0⟩ }

/-- Engine state holding chain F. -/
def stateC3 : EngineState := ⟨[(uuidF, chainF)], []⟩

/-- Chain id of the fork witness chain G. -/
def uuidG : Uuid := "abababab-0000-4000-8000-0000000000ab"

/-- Fork node of chain G. -/
def nodeForkG : Node :=
  { id := "0000000b-0000-4000-8000-00000000000b", type_name := "fork"
    config := .obj [], chain_id := uuidG }

/-- Log node of chain G. -/
def nodeLogG : Node :=
  { id := "0000000c-0000-4000-8000-00000000000c", type_name := "log"
    config := .obj [], chain_id := uuidG }

/-- Chain G: fork → log with the capitalised branch label "Success". -/
def chainG : RuleChain :=
  { id := uuidG, name := "G", root := true
    nodes := [nodeForkG, nodeLogG]
    connections := [⟨nodeForkG.id, nodeLogG.id, "Success"⟩]
    metadata := ⟨1, 0, 0⟩ }

/-- Engine state holding chain G. -/
def stateG : EngineState := ⟨[(uuidG, chainG)], []⟩

/-- Chain id of the join witness chain J. -/
def uuidJ : Uuid := "cdcdcdcd-0000-4000-8000-0000000000cd"

/-- Join node of chain J. -/
def nodeJoinJ : Node :=
  { id := "0000000d-0000-4000-8000-00000000000d", type_name := "join"
    config := .obj [], chain_id := uuidJ }

/-- First predecessor of the join. -/
def nodeT1J : Node :=
  { id := "0000000e-0000-4000-8000-00000000000e", type_name := "transform"
    config := .obj [], chain_id := uuidJ }

/-- Second predecessor of the join. -/
def nodeT2J : Node :=
  { id := "0000000f-0000-4000-8000-00000000000f", type_name := "transform"
    config := .obj [], chain_id := uuidJ }

/-- Chain J: two transforms feeding one join (`expected = 2`). -/
def chainJ : RuleChain :=
  { id := uuidJ, name := "J", root := true
    nodes := [nodeT1J, nodeT2J, nodeJoinJ]
    connections := [⟨nodeT1J.id, nodeJoinJ.id, "success"⟩,
                    ⟨nodeT2J.id, nodeJoinJ.id, "success"⟩]
    metadata := ⟨1, 0, 0⟩ }

/-- Engine state holding chain J. -/
def stateJ : EngineState := ⟨[(uuidJ, chainJ)], []⟩

/-- A base test message. -/
def msgBase : Message :=
  { id := "99999999-0000-4000-8000-000000000099", msg_type := "test"
    metadata := [], data := .obj [("value", .num 1)], timestamp := 0 }

/-- A second arrival with the same message id as `msgBase`. -/
def msgBase2 : Message :=
  { id := "99999999-0000-4000-8000-000000000099", msg_type := "test"
    metadata := [], data := .obj [("value", .num 2)], timestamp := 0 }

/-- Sequential feeding of arrivals through the join handler (left to
right), recording every outcome; used to state the join claim over a whole
fan-in round. -/
def joinFeed (st : EngineState) (node : Node) :
    JoinState → List Message → JoinState × List JoinOutcome
  | g, [] => (g, [])
  | g, m :: ms =>
    let o := joinHandle st node g m
    let (g', os) := joinFeed st node o.state ms
    (g', o :: os)

/-- A node factory that fails on every config (models a factory whose
`factory(config)` returns `Err`). -/
def failingFactory : NodeFactory := fun _ => none

/-- The empty node registry. -/
def emptyRegistry : NodeRegistry := ⟨[], []⟩

/-! ## Theorems -/

theorem alookup_ainsert_self {α : Type} (l : List (String × α)) (k : String) (v : α) :
    alookup (ainsert l k v) k = some v := by
  induction l with
  | nil => simp [ainsert, alookup]
  | cons p rest ih =>
    by_cases hp : p.1 = k
    · simp [ainsert, hp, alookup]
    · simp [ainsert, hp, alookup, ih]

theorem alookup_ainsert_other {α : Type} (l : List (String × α)) (k k' : String) (v : α)
    (hne : k' ≠ k) : alookup (ainsert l k v) k' = alookup l k' := by
  induction l with
  | nil =>
    simp only [ainsert, alookup]
    rw [if_neg (fun h => hne h.symm)]
  | cons p rest ih =>
    by_cases hp : p.1 = k
    · simp only [ainsert, if_pos hp, alookup]
      rw [if_neg (fun h => hne h.symm), if_neg (by rw [hp]; exact fun h => hne h.symm)]
    · simp only [ainsert, if_neg hp, alookup]
      by_cases hq : p.1 = k'
      · simp [hq]
      · rw [if_neg hq, if_neg hq]
        exact ih

theorem alookup_aremove_self {α : Type} (l : List (String × α)) (k : String) :
    alookup (aremove l k) k = none := by
  induction l with
  | nil => rfl
  | cons p rest ih =>
    by_cases hp : p.1 = k
    · simp [aremove, hp, ih]
    · simp [aremove, hp, alookup, ih]

theorem alookup_aremove_other {α : Type} (l : List (String × α)) (k k' : String)
    (hne : k' ≠ k) : alookup (aremove l k) k' = alookup l k' := by
  induction l with
  | nil => rfl
  | cons p rest ih =>
    by_cases hp : p.1 = k
    · rw [aremove, if_pos hp, ih, alookup, if_neg (by rw [hp]; exact fun h => hne h.symm)]
    · simp only [aremove, if_neg hp, alookup]
      by_cases hq : p.1 = k'
      · simp [hq]
      · rw [if_neg hq, if_neg hq]
        exact ih

theorem alookup_none_not_mem {α : Type} (l : List (String × α)) (k : String)
    (h : alookup l k = none) : k ∉ l.map (fun p => p.1) := by
  induction l with
  | nil => simp
  | cons p rest ih =>
    simp only [alookup] at h
    by_cases hp : p.1 = k
    · rw [if_pos hp] at h
      exact absurd h (by simp)
    · rw [if_neg hp] at h
      simp only [List.map_cons, List.mem_cons]
      push_neg
      exact ⟨fun hh => hp hh.symm, ih h⟩

/-- C10: `get_start_node` returns an error exactly when the chain's node
list is empty and otherwise returns `Ok(Some(first node))` — the literal
first element of the node list, with no search by type or by incoming
edges.  It never returns `Ok(None)`, so the "no start node"
(`"规则链没有起始节点"`) error branch guarded by `ok_or_else` in
`load_chain` and `execute_chain` is unreachable. -/
theorem getStartNode_spec (c : RuleChain) :
    ((∃ e, getStartNode c = .error e) ↔ c.nodes = []) ∧
    (∀ n rest, c.nodes = n :: rest → getStartNode c = .ok (some n)) ∧
    (∀ o, getStartNode c = .ok o → o ≠ none) ∧
    resolveStartNode c ≠ .error (.ConfigError "规则链没有起始节点") := by
  cases hc : c.nodes with
  | nil =>
    have hgs : getStartNode c = .error (.ConfigError "Empty rule chain") := by
      unfold getStartNode
      rw [hc]
    have hrs : resolveStartNode c = .error (.ConfigError "Empty rule chain") := by
      unfold resolveStartNode
      rw [hgs]
    refine ⟨⟨fun _ => rfl, fun _ => ⟨_, hgs⟩⟩, ?_, ?_, ?_⟩
    · intro n rest hcontra
      exact absurd hcontra (by simp)
    · intro o ho
      rw [hgs] at ho
      exact absurd ho (by simp)
    · rw [hrs]
      intro hcontra
      simp only [Except.error.injEq, RuleError.ConfigError.injEq] at hcontra
      exact absurd hcontra (by decide)
  | cons n rest =>
    have hok : getStartNode c = .ok (some n) := by
      unfold getStartNode
      rw [hc]
    have hrs : resolveStartNode c = .ok n := by
      unfold resolveStartNode
      rw [hok]
    refine ⟨⟨?_, ?_⟩, ?_, ?_, ?_⟩
    · rintro ⟨e, he⟩
      rw [hok] at he
      exact absurd he (by simp)
    · intro hnil
      exact absurd hnil (by simp)
    · intro n' rest' hc'
      injection hc' with h1 h2
      rw [hok, h1]
    · intro o ho
      rw [hok] at ho
      simp only [Except.ok.injEq] at ho
      rw [← ho]
      simp
    · rw [hrs]
      simp

/-- Witness for `getStartNode_spec` at the concrete chain Y. -/
theorem getStartNode_spec_witness :
    getStartNode chainY = .ok (some nodeStartY) :=
  (getStartNode_spec chainY).2.1 nodeStartY [nodeSubY] rfl

/-- C5: `execute_chain` increments the chain's execution counter exactly
once at entry and decrements it exactly once at exit.  For any body
(success or error — the body's result is returned unchanged and the
decrement is unconditional) that leaves the chain's counter entry where
the increment stored it, the counter's value after the call equals its
value before, and between increment and body it is one higher.  The
counter is a `usize` (`Nat` here) with a saturating decrement, so it never
goes below zero by construction. -/
theorem executeChain_counter (st : EngineState) (chain : RuleChain)
    (body : EngineState → Except RuleError Message × EngineState)
    (hbody : alookup (body (incrementCounter st chain.id)).2.counters chain.id =
      alookup (incrementCounter st chain.id).counters chain.id) :
    counterValue (executeChain st chain body).2 chain.id = counterValue st chain.id ∧
    counterValue (incrementCounter st chain.id) chain.id = counterValue st chain.id + 1 ∧
    (executeChain st chain body).1 = (body (incrementCounter st chain.id)).1 := by
  have hinc : alookup (incrementCounter st chain.id).counters chain.id =
      some ((alookup st.counters chain.id).getD 0 + 1) := by
    unfold incrementCounter
    exact alookup_ainsert_self _ _ _
  refine ⟨?_, ?_, rfl⟩
  · show counterValue (decrementCounter (body (incrementCounter st chain.id)).2 chain.id)
        chain.id = counterValue st chain.id
    unfold decrementCounter
    rw [hbody, hinc]
    unfold counterValue
    simp only [alookup_ainsert_self, Option.getD_some, Nat.add_sub_cancel]
  · unfold counterValue
    rw [hinc]
    rfl

/-- Witness for `executeChain_counter`: a body that fails (error path)
and leaves the state untouched, on the concrete chain T. -/
theorem executeChain_counter_witness :
    counterValue (executeChain stateTOnly chainT
      (fun s => (.error .FilterReject, s))).2 chainT.id =
      counterValue stateTOnly chainT.id ∧
    (executeChain stateTOnly chainT
      (fun s => (.error .FilterReject, s))).1 = .error .FilterReject :=
  ⟨(executeChain_counter stateTOnly chainT (fun s => (.error .FilterReject, s)) rfl).1,
   (executeChain_counter stateTOnly chainT (fun s => (.error .FilterReject, s)) rfl).2.2⟩

/-- C1 (code bug): `check_circular_dependency` reports a cycle on an
acyclic configuration.  With Y loaded (Y holds a subchain node referencing
the never-loaded U), checking the candidate chain X — whose two subchain
nodes both reference Y — yields a `CircularDependency` error although the
cross-chain sub-chain graph over \x7bX, Y\x7d (edges X→Y, X→Y, Y→U) is
acyclic.  The cause: `chain_stack` is inserted into but never removed
from, so the id Y left behind by traversing Y's own subchain node is
mistaken for a cycle when X's second subchain node references Y again
(the node-level `stack` *is* removed from on backtrack; the chain-level
stack is not).  `load_chain` propagates the error before inserting, so the
acyclic set \x7bX, Y\x7d cannot be fully loaded, contrary to the claim
and to the spec's own design rationale. -/
theorem checkCircularDependency_false_positive :
    isCircularError (checkCircularDependency 20 storeC1 chainX) = true ∧
    subchainGraphAcyclic [chainX, chainY] = true :=
  ⟨by decide, by decide⟩

/-- C3 counterexample: the fork node enumerates outgoing edges labelled
`"Success"`, not `"success"`.  On chain F, whose single outgoing fork edge
is labelled `"success"`, the fork dispatches no branch copy at all, while
the claim requires one copy per "success"-labelled edge. -/
theorem fork_lowercase_counterexample :
    forkDispatches stateC3 nodeForkF msgBase = .ok [] ∧
    (chainF.connections.filter (fun c =>
      c.from_id = nodeForkF.id ∧ c.type_name = "success")).length = 1 :=
  ⟨rfl, by decide⟩

/-- C4 counterexample: `remove_chain` parses **every** node's config as a
`SubchainConfig` (serde ignores unknown fields and defaults the flattened
`node_type`), with no check that the node is of type "subchain".  In
`stateC4`, no subchain node references T and T's execution counter is
zero, yet removal of T fails with a config error because chain Z's
js_function node carries a `chain_id` field holding T's id. -/
theorem removeChain_jsfunction_counterexample :
    isConfigError (removeChain stateC4 uuidT) = true ∧
    subchainNodeReferences stateC4 uuidT = false ∧
    counterValue stateC4 uuidT = 0 ∧
    (alookup stateC4.chains uuidT).isSome = true :=
  ⟨by decide, by decide, by decide, by decide⟩

/-- C7 counterexample: when the factory fails on the empty config,
`register` registers *nothing* — the type is neither creatable through
`create_handler` nor listed among the registered types — contrary to the
claim that the factory still registers with only the descriptor missing. -/
theorem register_failing_counterexample :
    getRegisteredTypes (register emptyRegistry "custom" failingFactory) = [] ∧
    createHandler (register emptyRegistry "custom" failingFactory) "custom"
      emptyJsonObj = none :=
  ⟨rfl, rfl⟩

/-- C7 amended: when the factory fails on the empty JSON object,
`register` leaves the registry entirely unchanged: no factory and no
descriptor is stored, so (for a type not registered before) the type is
not creatable, does not appear among registered types, has no descriptor,
and a chain using it fails validation with the unknown-node-type config
error. -/
theorem register_failing_spec (reg : NodeRegistry) (typeName : String)
    (f : NodeFactory) (hf : f emptyJsonObj = none) :
    register reg typeName f = reg ∧
    (alookup reg.factories typeName = none →
      createHandler (register reg typeName f) typeName emptyJsonObj = none ∧
      typeName ∉ getRegisteredTypes (register reg typeName f) ∧
      getDescriptor (register reg typeName f) typeName = none ∧
      ∀ node : Node, node.type_name = typeName →
        getNodeTypeOfNode (register reg typeName f) node =
          .error (.ConfigError ("未找到节点类型: " ++ typeName))) := by
  have hreg : register reg typeName f = reg := by
    unfold register
    rw [hf]
  refine ⟨hreg, fun hnone => ?_⟩
  rw [hreg]
  have hdesc : getDescriptor reg typeName = none := by
    unfold getDescriptor
    rw [hnone]
  refine ⟨?_, ?_, hdesc, ?_⟩
  · unfold createHandler
    rw [hnone]
  · exact alookup_none_not_mem reg.factories typeName hnone
  · intro node hn
    unfold getNodeTypeOfNode
    rw [hn, hdesc]

/-- Witness for `register_failing_spec` on the empty registry. -/
theorem register_failing_spec_witness :
    register emptyRegistry "custom2" failingFactory = emptyRegistry ∧
    getDescriptor (register emptyRegistry "custom2" failingFactory) "custom2" = none :=
  ⟨(register_failing_spec emptyRegistry "custom2" failingFactory rfl).1,
   ((register_failing_spec emptyRegistry "custom2" failingFactory rfl).2 rfl).2.2.1⟩

/-- C4 amended: `remove_chain` on a loaded chain id fails (store
unchanged) when any node of any loaded chain — of whatever type — has a
config that deserializes to a `SubchainConfig` referencing the id;
otherwise, when the chain's execution counter is positive it stays
positive through every 100 ms poll of the sequentially-modelled 5 s
window, and removal fails with the in-use timeout error; when the counter
is zero the first poll observes it and the chain *and its counter entry*
are removed, other chains untouched. -/
theorem removeChain_spec (st : EngineState) (id : Uuid)
    (hpresent : (alookup st.chains id).isSome = true) :
    (isReferenced st id = true →
      removeChain st id =
        .error (.ConfigError ("规则链 " ++ id ++ " 被引用,无法删除"))) ∧
    (isReferenced st id = false → 0 < counterValue st id →
      removeChain st id =
        .error (.ConfigError ("无法删除正在执行的规则链 " ++ id ++ ", 等待超时"))) ∧
    (isReferenced st id = false → counterValue st id = 0 →
      removeChain st id = .ok ⟨aremove st.chains id, aremove st.counters id⟩ ∧
      alookup (aremove st.chains id) id = none ∧
      alookup (aremove st.counters id) id = none ∧
      ∀ other, other ≠ id →
        alookup (aremove st.chains id) other = alookup st.chains other) := by
  obtain ⟨c, hc⟩ := Option.isSome_iff_exists.mp hpresent
  refine ⟨fun href => ?_, fun href hcnt => ?_, fun href hcnt => ?_⟩
  · unfold removeChain
    rw [hc]
    simp [href]
  · unfold removeChain
    rw [hc]
    simp [href, hcnt, Nat.not_eq_zero_of_lt hcnt]
  · unfold removeChain
    rw [hc]
    simp only [href, hcnt, Bool.false_eq_true, if_false, gt_iff_lt, Nat.lt_irrefl]
    refine ⟨by simp, alookup_aremove_self _ _, alookup_aremove_self _ _,
      fun other ho => alookup_aremove_other _ _ _ ho⟩

/-- Witness for `removeChain_spec`: removing the unreferenced, idle chain
T succeeds and empties the store. -/
theorem removeChain_spec_witness :
    removeChain stateTOnly uuidT = .ok ⟨[], []⟩ :=
  ((removeChain_spec stateTOnly uuidT (by decide)).2.2 (by decide) (by decide)).1

theorem find?_first_match {α : Type} (p : α → Bool) (pre : List α) (x : α)
    (post : List α) (hpre : ∀ a ∈ pre, p a = false) (hx : p x = true) :
    (pre ++ x :: post).find? p = some x := by
  induction pre with
  | nil =>
    simp only [List.nil_append, List.find?_cons, hx]
  | cons a rest ih =>
    have ha := hpre a (by simp)
    simp only [List.cons_append, List.find?_cons, ha]
    exact ih (fun b hb => hpre b (by simp [hb]))

/-- C6: successor selection.  With the node's chain loaded: a node with no
outgoing connections makes `send_next` deliver to no node and return
success; when the message's `metadata["branch_name"]` is set and some
outgoing connection matches it, the first matching connection (in
connection-list order) is taken; otherwise — no `branch_name`, or no
connection whose `type_name` equals it — the first outgoing connection is
taken. -/
theorem sendNext_spec (st : EngineState) (chain : RuleChain) (node : Node)
    (msg : Message) (hchain : alookup st.chains node.chain_id = some chain) :
    (chain.connections.filter (fun c => c.from_id = node.id) = [] →
      sendNextTarget st node msg = .ok none) ∧
    (∀ branch pre conn post target,
      alookup msg.metadata "branch_name" = some branch →
      chain.connections.filter (fun c => c.from_id = node.id) =
        pre ++ conn :: post →
      (∀ c ∈ pre, c.type_name ≠ branch) →
      conn.type_name = branch →
      chain.nodes.find? (fun n => n.id = conn.to_id) = some target →
      sendNextTarget st node msg = .ok (some target)) ∧
    (∀ conn rest target,
      chain.connections.filter (fun c => c.from_id = node.id) = conn :: rest →
      (∀ branch, alookup msg.metadata "branch_name" = some branch →
        ∀ c ∈ conn :: rest, c.type_name ≠ branch) →
      chain.nodes.find? (fun n => n.id = conn.to_id) = some target →
      sendNextTarget st node msg = .ok (some target)) := by
  have hsend : sendNextTarget st node msg = getNextNode chain node.id msg := by
    unfold sendNextTarget
    rw [hchain]
  refine ⟨?_, ?_, ?_⟩
  · intro hfilter
    rw [hsend]
    unfold getNextNode
    rw [hfilter]
  · intro branch pre conn post target hbranch hfilter hpre hconn htarget
    have hfind : (pre ++ conn :: post).find?
        (fun c => decide (c.type_name = branch)) = some conn :=
      find?_first_match _ pre conn post
        (fun b hb => by simp [hpre b hb]) (by simp [hconn])
    rw [hsend]
    unfold getNextNode
    rw [hfilter]
    cases pre with
    | nil =>
      simp only [List.nil_append] at hfind ⊢
      rw [hbranch]
      dsimp only
      rw [hfind]
      dsimp only
      unfold resolveConnTarget
      rw [htarget]
    | cons a rest =>
      simp only [List.cons_append] at hfind ⊢
      rw [hbranch]
      dsimp only
      rw [hfind]
      dsimp only
      unfold resolveConnTarget
      rw [htarget]
  · intro conn rest target hfilter hnomatch htarget
    rw [hsend]
    unfold getNextNode
    rw [hfilter]
    cases hbranch : alookup msg.metadata "branch_name" with
    | none =>
      dsimp only
      unfold resolveConnTarget
      rw [htarget]
    | some branch =>
      have hfind : (conn :: rest).find?
          (fun c => decide (c.type_name = branch)) = none := by
        rw [List.find?_eq_none]
        intro c hcmem
        simp [hnomatch branch hbranch c hcmem]
      dsimp only
      rw [hfind]
      dsimp only
      unfold resolveConnTarget
      rw [htarget]

/-- Witness for `sendNext_spec`: on chain F the fork node's single
outgoing connection routes to the log node (no `branch_name` set). -/
theorem sendNext_spec_witness :
    sendNextTarget stateC3 nodeForkF msgBase = .ok (some nodeLogF) :=
  (sendNext_spec stateC3 chainF nodeForkF msgBase rfl).2.2
    ⟨nodeForkF.id, nodeLogF.id, "success"⟩ [] nodeLogF rfl
    (fun branch hbranch => absurd hbranch (by simp [msgBase, alookup])) rfl

theorem joinHandle_step_wait (st : EngineState) (chain : RuleChain) (node : Node)
    (g : JoinState) (msg : Message)
    (hchain : alookup st.chains node.chain_id = some chain)
    (hlt : ((alookup g msg.id).getD []).length + 1 <
      (chain.connections.filter (fun conn => conn.to_id = node.id)).length) :
    joinHandle st node g msg =
      ⟨ainsert g msg.id ((alookup g msg.id).getD [] ++ [msg]), .ok msg, none⟩ := by
  unfold joinHandle
  rw [hchain]
  dsimp only
  rw [if_neg (by
    simp only [List.length_append, List.length_cons, List.length_nil]
    omega)]

theorem joinHandle_step_merge (st : EngineState) (chain : RuleChain) (node : Node)
    (g : JoinState) (msg : Message)
    (hchain : alookup st.chains node.chain_id = some chain)
    (hge : (chain.connections.filter (fun conn => conn.to_id = node.id)).length ≤
      ((alookup g msg.id).getD []).length + 1) :
    joinHandle st node g msg =
      ⟨ainsert g msg.id [],
       .ok (joinMerged msg ((alookup g msg.id).getD [] ++ [msg])),
       some (joinMerged msg ((alookup g msg.id).getD [] ++ [msg]))⟩ := by
  unfold joinHandle
  rw [hchain]
  dsimp only
  rw [if_pos (by
    simp only [List.length_append, List.length_cons, List.length_nil]
    omega)]

/-- C2: one fan-in round of the join node.  `expected` is the number of
connections into the join node; every arrival is pushed onto the global
map's entry for its message id; for a run of `expected` same-id arrivals
(the entry starting with whatever is already stored), each arrival before
the expected-th returns the inbound message unchanged and forwards
nothing, and the expected-th arrival drains the entry and both returns and
forwards (via `send_next`, to the join's successor) a single merged
message holding one `\x7b"data": …\x7d` branch per stored arrival. -/
theorem joinHandle_claim (st : EngineState) (chain : RuleChain) (node : Node)
    (hchain : alookup st.chains node.chain_id = some chain) :
    ∀ (ms : List Message) (mlast : Message) (g : JoinState) (i : String),
      (∀ m ∈ ms ++ [mlast], m.id = i) →
      ((alookup g i).getD []).length + ms.length + 1 =
        (chain.connections.filter (fun conn => conn.to_id = node.id)).length →
      (joinFeed st node g (ms ++ [mlast])).2.map (fun o => (o.result, o.forwarded)) =
        ms.map (fun m => ((.ok m : Except RuleError Message), (none : Option Message)))
          ++ [(.ok (joinMerged mlast ((alookup g i).getD [] ++ (ms ++ [mlast]))),
               some (joinMerged mlast ((alookup g i).getD [] ++ (ms ++ [mlast]))))] := by
  intro ms
  induction ms with
  | nil =>
    intro mlast g i hid hlen
    have hmid : mlast.id = i := hid mlast (by simp)
    simp only [List.length_nil, Nat.add_zero] at hlen
    have hmerge := joinHandle_step_merge st chain node g mlast hchain
      (by rw [hmid]; omega)
    have hfeed : (joinFeed st node g [mlast]).2 = [joinHandle st node g mlast] := rfl
    simp only [List.nil_append, hfeed, List.map_cons, List.map_nil, hmerge, hmid]
  | cons m ms ih =>
    intro mlast g i hid hlen
    have hmid : m.id = i := hid m (by simp)
    simp only [List.length_cons] at hlen
    have hwait := joinHandle_step_wait st chain node g m hchain
      (by rw [hmid]; omega)
    have hfeed : (joinFeed st node g ((m :: ms) ++ [mlast])).2 =
        joinHandle st node g m ::
          (joinFeed st node (joinHandle st node g m).state (ms ++ [mlast])).2 := rfl
    have hstored : (alookup (ainsert g i ((alookup g i).getD [] ++ [m])) i).getD [] =
        (alookup g i).getD [] ++ [m] := by
      rw [alookup_ainsert_self]
      rfl
    have htail := ih mlast (ainsert g i ((alookup g i).getD [] ++ [m])) i
      (fun m' hm' => hid m' (by simp at hm' ⊢; tauto))
      (by rw [hstored]; simp only [List.length_append, List.length_cons, List.length_nil]; omega)
    rw [hfeed, List.map_cons, hwait, hmid]
    dsimp only
    rw [htail, hstored]
    simp

/-- Witness for `joinHandle_claim`: on chain J (two connections into the
join) the first arrival is returned unchanged without forwarding, and the
second arrival emits the merged two-branch message. -/
theorem joinHandle_claim_witness :
    (joinFeed stateJ nodeJoinJ [] [msgBase, msgBase2]).2.map
      (fun o => (o.result, o.forwarded)) =
      [((.ok msgBase : Except RuleError Message), (none : Option Message)),
       (.ok (joinMerged msgBase2 [msgBase, msgBase2]),
        some (joinMerged msgBase2 [msgBase, msgBase2]))] := by
  have h := joinHandle_claim stateJ chainJ nodeJoinJ rfl [msgBase] msgBase2 []
    msgBase.id (by decide) (by decide)
  simpa using h

theorem zip_range_map {α β γ : Type} (l : List α) (f : Nat → β) (g : α → β → γ) :
    (l.zip ((List.range l.length).map f)).map (fun p => g p.1 p.2) =
      l.mapIdx (fun i a => g a (f i)) := by
  induction l generalizing f with
  | nil => rfl
  | cons a rest ih =>
    simp only [List.length_cons, List.range_succ_eq_map, List.map_cons,
      List.zip_cons_cons, List.mapIdx_cons, List.map_map]
    exact congrArg _ (ih (fun i => f (i + 1)) )

/-- C3 amended: the fork node enumerates the outgoing edges labelled
`"Success"` (exact, case-sensitive), builds the i-th branch copy with
`metadata["branch_id"] = toString i` and `metadata["is_branch"] = "true"`,
and dispatches it to that edge's `to_id`, in edge order; awaiting the
spawned branches inspects their results in spawn order and returns the
first branch error when one failed, or the original message when every
branch succeeded. -/
theorem fork_spec (st : EngineState) (chain : RuleChain) (node : Node)
    (msg : Message) (hchain : alookup st.chains node.chain_id = some chain) :
    forkDispatches st node msg =
      .ok ((chain.connections.filter (fun c =>
          c.from_id = node.id ∧ c.type_name = "Success")).mapIdx (fun i c =>
        (c.to_id, { msg with metadata :=
          (ainsert (ainsert msg.metadata "branch_id" (toString i))
            "is_branch" "true") }))) ∧
    (∀ results : List (Except RuleError Message),
      (∀ r ∈ results, ∃ m, r = .ok m) → forkCollect results msg = .ok msg) ∧
    (∀ pre e post, (∀ r ∈ pre, ∃ m, r = .ok m) →
      forkCollect (pre ++ .error e :: post) msg = .error e) := by
  refine ⟨?_, ?_, ?_⟩
  · unfold forkDispatches getNextConnections
    rw [hchain]
    dsimp only
    exact congrArg Except.ok
      (zip_range_map
        (chain.connections.filter (fun c =>
          decide (c.from_id = node.id ∧ c.type_name = "Success")))
        (fun i => { msg with metadata :=
          (ainsert (ainsert msg.metadata "branch_id" (toString i))
            "is_branch" "true") })
        (fun c m => (c.to_id, m)))
  · intro results h
    induction results with
    | nil => rfl
    | cons r rest ih =>
      obtain ⟨m, hm⟩ := h r (by simp)
      subst hm
      show forkCollect rest msg = .ok msg
      exact ih (fun r hr => h r (by simp [hr]))
  · intro pre e post h
    induction pre with
    | nil => rfl
    | cons r rest ih =>
      obtain ⟨m, hm⟩ := h r (by simp)
      subst hm
      show forkCollect (rest ++ .error e :: post) msg = .error e
      exact ih (fun r hr => h r (by simp [hr]))

/-- Witness for `fork_spec`: on chain G (one "Success" edge) exactly one
branch copy is dispatched to the log node, and an all-success await
returns the original message. -/
theorem fork_spec_witness :
    forkDispatches stateG nodeForkG msgBase =
      .ok [(nodeLogG.id, { msgBase with metadata :=
        (ainsert (ainsert msgBase.metadata "branch_id" "0") "is_branch" "true") })] ∧
    forkCollect [.ok msgBase] msgBase = .ok msgBase := by
  have h := fork_spec stateG chainG nodeForkG msgBase rfl
  exact ⟨h.1.trans (by rfl),
    h.2.1 [.ok msgBase] (by intro r hr; simp at hr; exact ⟨msgBase, hr⟩)⟩

/-- C9: on the success path, `process_msg` returns exactly the result
`execute_chain` produced *before* the after-hooks ran, and the
after-process interceptors are invoked with the original inbound message:
whether the call succeeds is decided by `afterProcess hooks msg` — a
function of the inbound `msg` alone — and when it succeeds the returned
value is the untouched `execute_chain` result, so message-after
interceptors can neither observe nor alter the returned message (their
only influence is turning the whole call into their own error). -/
theorem processMsg_spec (st : EngineState) (hooks : List (MsgHook × MsgHook))
    (f : RuleChain → Message → Except RuleError Message) (chainId : Uuid)
    (msg : Message) (chain : RuleChain) (r : Message)
    (hchain : alookup st.chains chainId = some chain)
    (hroot : chain.root = true)
    (hbefore : beforeProcess hooks msg = .ok ())
    (hexec : f chain msg = .ok r) :
    (processMsg st hooks f chainId msg = .ok r ↔
      afterProcess hooks msg = .ok ()) ∧
    (∀ e, afterProcess hooks msg = .error e →
      processMsg st hooks f chainId msg = .error e) := by
  unfold processMsg
  rw [hbefore, hchain]
  dsimp only
  rw [hroot, hexec, if_neg (by simp : ¬(true = false))]
  dsimp only
  cases hafter : afterProcess hooks msg with
  | ok u =>
    cases u
    simp
  | error e =>
    simp

/-- Witness for `processMsg_spec`: with no interceptors and an execution
function returning the message unchanged, `process_msg` on the root chain
F returns that execution result. -/
theorem processMsg_spec_witness :
    processMsg stateC3 [] (fun _ m => .ok m) uuidF msgBase = .ok msgBase :=
  (processMsg_spec stateC3 [] (fun _ m => .ok m) uuidF msgBase chainF msgBase
    rfl rfl rfl rfl).1.mpr rfl

/-- C8 counterexample: on a message whose data has no "id" field, the
template value `"$\x7bmsg.id\x7d"` substitutes to the empty string rather
than to the message's id: the `"msg.id"` match arm is dead code, because
every path starting with "msg." is routed to the data lookup. -/
theorem template_msg_id_counterexample :
    applyTemplate 8 msgBase (.obj [("out", .str (mkMarker "msg.id"))]) =
      .ok (.obj [("out", .str "")]) ∧
    msgBase.id ≠ "" :=
  ⟨rfl, by decide⟩

theorem findMarker_of_no_dollar (s : List Char) (h : '$' ∉ s) :
    findMarker s = none := by
  induction s with
  | nil => rfl
  | cons c rest ih =>
    simp only [List.mem_cons, not_or] at h
    obtain ⟨hc, hrest⟩ := h
    unfold findMarker
    rw [if_neg (fun hh => hc hh.symm), ih hrest]
    rfl

theorem findCharIn_append (ch : Char) (l r : List Char) (h : ch ∉ l) :
    findCharIn ch (l ++ ch :: r) = some l.length := by
  induction l with
  | nil => simp [findCharIn]
  | cons c rest ih =>
    simp only [List.mem_cons, not_or] at h
    obtain ⟨hc, hrest⟩ := h
    simp only [List.cons_append]
    unfold findCharIn
    rw [if_neg (fun hh => hc hh.symm), ih hrest]
    rfl

theorem markerReplacement_not_msg (msg : Message) (p : List Char)
    (h : startsWithMsgDot p = false) : markerReplacement msg p = [] := by
  have h1 : p ≠ ("msg.type").data := by
    intro hp
    rw [hp] at h
    exact absurd h (by decide)
  have h2 : p ≠ ("msg.id").data := by
    intro hp
    rw [hp] at h
    exact absurd h (by decide)
  unfold markerReplacement
  simp only [h, Bool.false_eq_true, if_false]
  rw [if_neg h1, if_neg h2]

/-- C8 amended: a top-level template string consisting of the marker
`"$\x7b" ++ p ++ "\x7d"` (for any path `p` free of '$' and braces whose
substituted value re-introduces no marker) is replaced by: the dotted-path
lookup into the *message's data* of `p` stripped of its "msg." prefix when
`p` starts with "msg." — so `msg.id` reads `data.id`, `msg.type` reads
`data.type` and `msg.data.x` reads `data.data.x`, never the message's id
or type tag — and the empty string otherwise; a missing path also yields
the empty string (the `getD`). -/
theorem applyTemplate_marker_spec (msg : Message) (k p : String) (fuel : Nat)
    (hfuel : 2 ≤ fuel)
    (hp : ∀ c ∈ p.data, c ≠ '$' ∧ c ≠ lbrace ∧ c ≠ rbrace)
    (hrepl : '$' ∉ markerReplacement msg p.data) :
    applyTemplate fuel msg (.obj [(k, .str (mkMarker p))]) =
      .ok (.obj [(k, .str (String.mk
        (if startsWithMsgDot p.data then
          (getValueByPath msg.data (p.data.drop 4)).getD []
        else [])))]) := by
  obtain ⟨m, rfl⟩ : ∃ m, fuel = m + 2 := ⟨fuel - 2, by omega⟩
  have hstep : substLoop msg (m + 2) ((mkMarker p).data) =
      markerReplacement msg p.data := by
    have hfm : findMarker ('$' :: lbrace :: (p.data ++ [rbrace])) = some 0 := rfl
    have hfc : findCharIn rbrace
        (('$' :: lbrace :: (p.data ++ [rbrace])).drop 0) =
        some (p.data.length + 2) := by
      rw [List.drop_zero]
      rw [show ('$' :: lbrace :: (p.data ++ [rbrace])) =
        ('$' :: lbrace :: p.data) ++ rbrace :: [] by simp]
      rw [findCharIn_append rbrace ('$' :: lbrace :: p.data) []
        (by
          simp only [List.mem_cons, not_or]
          refine ⟨by decide, by decide, fun hmem => (hp rbrace hmem).2.2 rfl⟩)]
      rfl
    have hdrop : ('$' :: lbrace :: (p.data ++ [rbrace])).drop
        (p.data.length + 2 + 1) = [] := by
      apply List.drop_eq_nil_of_le
      simp
    have htake : (('$' :: lbrace :: (p.data ++ [rbrace])).drop (0 + 2)).take
        (p.data.length + 2 - 2) = p.data := by
      simp only [List.drop_succ_cons, List.drop_zero, Nat.add_sub_cancel]
      exact List.take_left p.data [rbrace]
    show substLoop msg (m + 1 + 1) ('$' :: lbrace :: (p.data ++ [rbrace])) =
      markerReplacement msg p.data
    rw [substLoop, hfm]
    dsimp only
    rw [hfc]
    dsimp only
    rw [htake]
    simp only [Nat.zero_add, List.take_zero, List.nil_append]
    rw [hdrop, List.append_nil]
    rw [substLoop, findMarker_of_no_dollar (markerReplacement msg p.data) hrepl]
  have hmr : markerReplacement msg p.data =
      (if startsWithMsgDot p.data then
        (getValueByPath msg.data (p.data.drop 4)).getD [] else []) := by
    cases hsw : startsWithMsgDot p.data
    · simp only [Bool.false_eq_true, if_false]
      exact markerReplacement_not_msg msg p.data hsw
    · simp only [if_true]
      unfold markerReplacement
      simp only [hsw, if_true]
  rw [show applyTemplate (m + 2) msg (.obj [(k, .str (mkMarker p))]) =
      .ok (.obj [(k, .str (String.mk
        (substLoop msg (m + 2) ((mkMarker p).data))))]) from rfl]
  rw [hstep, hmr]

/-- Witness for `applyTemplate_marker_spec`: the path `msg.value` on a
message whose data is `\x7b"value": 1\x7d` substitutes to "1". -/
theorem applyTemplate_marker_spec_witness :
    applyTemplate 2 msgBase (.obj [("k", .str (mkMarker "msg.value"))]) =
      .ok (.obj [("k", .str "1")]) :=
  (applyTemplate_marker_spec msgBase "k" "msg.value" 2 (by omega)
    (by decide) (by decide)).trans (by rfl)

end RuleRs
